import Mathlib

/-!
Verification development for the Mable data pipeline (src/pipeline.py).

The pipeline is a linear DuckDB/pandas script: it loads four CSV extracts
into bronze tables, derives cleaned silver tables (a profile union, a
deduplicated users dimension, a pivoted service-log fact), copies them
forward into gold tables adding one derived metric, and runs a final
analytical join.  This file gives a shallow embedding of those
transformations as executable Lean functions and proves the documented
properties about them.

Modelling conventions, stated once here:
* timestamps (DATETIME values) are modelled as integers at second
  granularity; the textual round trip in the gold layer
  (LEFT(ts, 19) followed by strptime with the fixed 19-character format)
  is the identity on this model, since every value shares that prefix
  format;
* SQL DOUBLE values are modelled as exact rationals;
* SQL NULL is modelled with Option;
* a failing statement (cast error, primary-key violation, catalog or
  binder error) is modelled with Except.error carrying a message naming
  the DuckDB error class;
* the DuckDB HASH function is modelled as an injective pairing of its
  two arguments, the idealisation of a collision-free hash.
-/

namespace Mable

/-- Decidable equality of run outcomes, so that concrete pipeline
evaluations can be checked by decide. -/
instance [DecidableEq ε] [DecidableEq α] : DecidableEq (Except ε α) := fun x y =>
  match x, y with
  | Except.error a, Except.error b =>
    if h : a = b then isTrue (by rw [h]) else isFalse (by intro hc; cases hc; exact h rfl)
  | Except.error _, Except.ok _ => isFalse (by intro hc; cases hc)
  | Except.ok _, Except.error _ => isFalse (by intro hc; cases hc)
  | Except.ok a, Except.ok b =>
    if h : a = b then isTrue (by rw [h]) else isFalse (by intro hc; cases hc; exact h rfl)

/-- Timestamps are integers at second granularity. -/
abbrev Timestamp := Int

/-- One row of data/client_profiles.csv as loaded into client_profiles_bronze. -/
structure ClientProfileRow where
  id : Int
  user_id : Option Int
  customer_segment : String
  created_at : Timestamp
  updated_at : Timestamp
deriving DecidableEq

/-- One row of data/support_provider_profiles.csv as loaded into support_provider_profiles_bronze. -/
structure WorkerProfileRow where
  id : Int
  user_id : Option Int
  worker_segment : String
  created_at : Timestamp
  updated_at : Timestamp
deriving DecidableEq

/-- One row of data/users.csv as loaded into users_bronze. -/
structure UserRow where
  id : Int
  first_name : String
  last_name : String
  user_type : String
  state : String
  created_at : Timestamp
  updated_at : Timestamp
deriving DecidableEq

/-- One row of data/service_logs.csv as loaded into service_logs_bronze.
The hourly_rate column holds currency-formatted text such as a dollar sign
followed by digits; it is only parsed in the silver layer. -/
structure ServiceLogRow where
  id : Int
  client_id : Option Int
  worker_id : Option Int
  status : String
  start_time : Option Timestamp
  end_time : Option Timestamp
  hourly_rate : String
  created_at : Timestamp
  updated_at : Timestamp
deriving DecidableEq

/-- DuckDB HASH(id, tag), modelled as an injective pairing of its
arguments: the idealisation of a collision-free 64-bit hash, matching the
role the pipeline assigns it (a primary key that is meant to make
same-id rows of different types distinct). -/
def duckHash (i : Int) (tag : String) : Int × String := (i, tag)

/-- One row of dim_profiles_silver / dim_profiles_gold
(pipeline.py lines 75 to 109). -/
structure ProfileRow where
  id : Int
  user_id : Option Int
  user_type : String
  segment : String
  created_at : Timestamp
  updated_at : Timestamp
  hash_id : Int × String
deriving DecidableEq

/-- The worker branch of the UNION ALL in the dim_profiles_silver insert
(pipeline.py lines 90 to 98). -/
def workerProfileRow (r : WorkerProfileRow) : ProfileRow :=
  ⟨r.id, r.user_id, "worker", r.worker_segment, r.created_at, r.updated_at, duckHash r.id "worker"⟩

/-- The client branch of the UNION ALL in the dim_profiles_silver insert
(pipeline.py lines 100 to 108). -/
def clientProfileRow (r : ClientProfileRow) : ProfileRow :=
  ⟨r.id, r.user_id, "client", r.customer_segment, r.created_at, r.updated_at, duckHash r.id "client"⟩

/-- dim_profiles_silver (pipeline.py lines 75 to 109): UNION ALL of the
two profile bronze tables, worker rows first, with hash_id as each row's
identity.  The table declares hash_id as PRIMARY KEY, so the insert
fails with a constraint error when two rows share a hash_id. -/
def dim_profiles_silver (ws : List WorkerProfileRow) (cs : List ClientProfileRow) :
    Except String (List ProfileRow) :=
  let rows := ws.map workerProfileRow ++ cs.map clientProfileRow
  if (rows.map (fun r => r.hash_id)).Nodup then Except.ok rows
  else Except.error "Constraint Error: duplicate key violates dim_profiles_silver primary key"

/-- One step of a running best-element fold: keep the later element only
when it strictly improves the measure, as ORDER BY updated_at DESC does
when row_number keeps the top row (ties keep the earlier row, one of the
arbitrary tie-breaks the engine may pick). -/
def pickBy (f : α → Int) (b r : α) : α := if f b < f r then r else b

/-- The element of a list maximising a measure (first maximiser wins). -/
def bestBy (f : α → Int) : List α → Option α
  | [] => none
  | x :: xs => some (xs.foldl (pickBy f) x)

/-- QUALIFY row_number() OVER (PARTITION BY key ORDER BY upd DESC) = 1:
for each distinct key, keep exactly the row of that key group with the
greatest upd value.  Used for the users dedup (key = id) and the
service-log status dedup (key = (id, status)). -/
def latestPerKey [DecidableEq κ] (key : α → κ) (upd : α → Int) (rows : List α) : List α :=
  ((rows.map key).dedup).filterMap
    (fun k => bestBy upd (rows.filter (fun r => decide (key r = k))))

/-- dim_users_silver (pipeline.py lines 178 to 184): SELECT * FROM
users_bronze QUALIFY row_number() OVER (PARTITION BY id ORDER BY
updated_at DESC) = 1. -/
def dim_users_silver (us : List UserRow) : List UserRow :=
  latestPerKey (fun r => r.id) (fun r => r.updated_at) us

/-- The dollar-sign character, code 36. -/
def dollarChar : Char := Char.ofNat 36

/-- The full-stop character, code 46. -/
def dotChar : Char := Char.ofNat 46

/-- The minus character, code 45. -/
def minusChar : Char := Char.ofNat 45

/-- REPLACE(s, dollar, empty): remove every dollar sign from the string. -/
def stripDollar (s : String) : String :=
  ⟨s.data.filter (fun c => decide (c ≠ dollarChar))⟩

/-- Value of a most-significant-first digit list. -/
def digitsToNat (cs : List Char) : Nat :=
  cs.foldl (fun a c => 10 * a + (c.toNat - 48)) 0

/-- CAST(s AS DOUBLE) on an unsigned decimal literal: digits with an
optional fractional part.  Anything else fails the cast. -/
def parseUnsigned (cs : List Char) : Option ℚ :=
  match cs.splitOn dotChar with
  | [ip] =>
    if ip.all Char.isDigit && !ip.isEmpty then some (digitsToNat ip : ℚ) else none
  | [ip, fp] =>
    if ip.all Char.isDigit && fp.all Char.isDigit && (!ip.isEmpty || !fp.isEmpty) then
      some ((digitsToNat ip : ℚ) + (digitsToNat fp : ℚ) / ((10 : ℚ) ^ fp.length))
    else none
  | _ => none

/-- CAST(s AS DOUBLE): an optional leading minus sign, then an unsigned
decimal literal.  Returns none when the text is not numeric, which in
DuckDB raises a conversion error. -/
def castDouble (s : String) : Option ℚ :=
  match s.data with
  | [] => none
  | c :: rest =>
    if c = minusChar then (parseUnsigned rest).map (fun q => -q)
    else parseUnsigned (c :: rest)

/-- One row of the service_logs_clean CTE (pipeline.py lines 136 to 151)
after the WHERE filter and the hourly_rate cast. -/
structure CleanRow where
  id : Int
  client_id : Option Int
  worker_id : Option Int
  status : String
  start_time : Option Timestamp
  end_time : Option Timestamp
  hourly_rate : ℚ
  created_at : Timestamp
  updated_at : Timestamp
deriving DecidableEq

/-- The WHERE clause of service_logs_clean: worker_id IS NOT NULL AND
status not equal to the literal rejected. -/
def service_logs_filtered (ls : List ServiceLogRow) : List ServiceLogRow :=
  ls.filter (fun r => r.worker_id.isSome && r.status != "rejected")

/-- The SELECT list of service_logs_clean applied to one surviving row:
cast the currency text to a number, keep everything else.  A failed cast
aborts the whole insert, as CAST does in DuckDB. -/
def castRow (r : ServiceLogRow) : Except String CleanRow :=
  match castDouble (stripDollar r.hourly_rate) with
  | some q =>
    Except.ok ⟨r.id, r.client_id, r.worker_id, r.status, r.start_time, r.end_time, q,
      r.created_at, r.updated_at⟩
  | none => Except.error "Conversion Error: could not cast hourly_rate to DOUBLE"

/-- Row-by-row effectful map over Except, stopping at the first error. -/
def exceptMapM (f : α → Except String β) : List α → Except String (List β)
  | [] => Except.ok []
  | a :: as =>
    match f a with
    | Except.error e => Except.error e
    | Except.ok b =>
      match exceptMapM f as with
      | Except.error e => Except.error e
      | Except.ok bs => Except.ok (b :: bs)

/-- The QUALIFY partition key of service_logs_clean: (id, status). -/
def cleanKey (r : CleanRow) : Int × String := (r.id, r.status)

/-- The GROUP BY key of the PIVOT (pipeline.py line 156). -/
structure FactKey where
  id : Int
  client_id : Option Int
  worker_id : Option Int
  start_time : Option Timestamp
  end_time : Option Timestamp
  hourly_rate : ℚ
deriving DecidableEq

def groupKey (r : CleanRow) : FactKey :=
  ⟨r.id, r.client_id, r.worker_id, r.start_time, r.end_time, r.hourly_rate⟩

/-- One row of fact_service_logs_silver (pipeline.py lines 121 to 131). -/
structure FactRow where
  id : Int
  client_id : Option Int
  worker_id : Option Int
  start_time : Option Timestamp
  end_time : Option Timestamp
  hourly_rate : ℚ
  approved_time : Option Timestamp
  submitted_time : Option Timestamp
deriving DecidableEq

/-- max(updated_at) over the rows of a pivot group carrying one status;
NULL when the group has no row of that status. -/
def maxUpdated (g : List CleanRow) (st : String) : Option Timestamp :=
  (bestBy (fun r => r.updated_at) (g.filter (fun r => r.status == st))).map
    (fun r => r.updated_at)

/-- The output row the PIVOT produces for one group key.  The target
schema lists approved_time before submitted_time, matching the sorted
order in which DuckDB lays out the pivoted status columns. -/
def mkFactRow (k : FactKey) (g : List CleanRow) : FactRow :=
  ⟨k.id, k.client_id, k.worker_id, k.start_time, k.end_time, k.hourly_rate,
    maxUpdated g "approved", maxUpdated g "submitted"⟩

/-- PIVOT service_logs_clean ON status USING max(updated_at) GROUP BY
(id, client_id, worker_id, start_time, end_time, hourly_rate): one output
row per distinct group key. -/
def pivotRows (rows : List CleanRow) : List FactRow :=
  ((rows.map groupKey).dedup).map
    (fun k => mkFactRow k (rows.filter (fun r => decide (groupKey r = k))))

/-- DuckDB creates one pivoted column per distinct status value, in
sorted order.  The INSERT succeeds only when those columns are exactly
approved_time and submitted_time, the two status columns of the target
schema; any other set of statuses changes the column list and the INSERT
fails with a binder error. -/
def pivotColumnsOK (rows : List CleanRow) : Bool :=
  let ss := (rows.map (fun r => r.status)).dedup
  ss.contains "approved" && ss.contains "submitted" &&
    ss.all (fun s => s == "approved" || s == "submitted")

/-- Insertion into a list kept sorted by id (ORDER BY id, line 157). -/
def insertById (r : FactRow) : List FactRow → List FactRow
  | [] => [r]
  | x :: xs => if r.id ≤ x.id then r :: x :: xs else x :: insertById r xs

/-- ORDER BY id over the pivot output. -/
def sortById (l : List FactRow) : List FactRow := l.foldr insertById []

/-- fact_service_logs_silver (pipeline.py lines 134 to 158): filter and
cast the bronze rows, keep the latest row per (id, status), pivot the
statuses into columns, order by id, and enforce the declared PRIMARY KEY
on id. -/
def fact_service_logs_silver (ls : List ServiceLogRow) : Except String (List FactRow) :=
  match exceptMapM castRow (service_logs_filtered ls) with
  | Except.error e => Except.error e
  | Except.ok cleaned =>
    let kept := latestPerKey cleanKey (fun r => r.updated_at) cleaned
    if pivotColumnsOK kept then
      let out := sortById (pivotRows kept)
      if (out.map (fun r => r.id)).Nodup then Except.ok out
      else Except.error "Constraint Error: duplicate key violates fact_service_logs_silver primary key"
    else Except.error "Binder Error: PIVOT column list does not match the target schema"

/-- One row of fact_service_logs_gold (pipeline.py lines 220 to 231). -/
structure GoldFactRow where
  id : Int
  client_id : Option Int
  worker_id : Option Int
  start_time : Option Timestamp
  end_time : Option Timestamp
  hourly_rate : ℚ
  approved_time : Option Timestamp
  submitted_time : Option Timestamp
  time_to_approval : Option Int
deriving DecidableEq

/-- time_to_approval (pipeline.py line 245): strptime(LEFT(approved, 19))
minus strptime(LEFT(submitted, 19)).  On the integer timestamp model the
textual round trip is the identity, and NULL in either operand
propagates to NULL. -/
def timeToApproval (a s : Option Timestamp) : Option Int :=
  match a, s with
  | some ta, some ts => some (ta - ts)
  | _, _ => none

/-- fact_service_logs_gold (pipeline.py lines 234 to 247): copy the
silver fact rows and append the derived time_to_approval column. -/
def fact_service_logs_gold (fs : List FactRow) : List GoldFactRow :=
  fs.map (fun r =>
    ⟨r.id, r.client_id, r.worker_id, r.start_time, r.end_time, r.hourly_rate,
      r.approved_time, r.submitted_time, timeToApproval r.approved_time r.submitted_time⟩)

/-- The contents of one database table, tagged by row type. -/
inductive TableData where
  | clientsT (rows : List ClientProfileRow)
  | workersT (rows : List WorkerProfileRow)
  | logsT (rows : List ServiceLogRow)
  | usersT (rows : List UserRow)
  | profilesT (rows : List ProfileRow)
  | factT (rows : List FactRow)
  | factGoldT (rows : List GoldFactRow)
deriving DecidableEq

/-- The catalog of the mable.db database: each table name maps to its
current contents, none when no such table exists. -/
def DB : Type := String → Option TableData

/-- A database with no tables yet: the state before the first run. -/
def emptyDB : DB := fun _ => none

/-- CREATE OR REPLACE TABLE (and DROP TABLE IF EXISTS followed by
CREATE, which the bronze loop uses): the new contents replace whatever
the name held before. -/
def createTable (n : String) (v : TableData) (db : DB) : DB :=
  fun m => if m = n then some v else db m

/-- The four CSV inputs of one pipeline run. -/
structure PipelineInput where
  client_profiles : List ClientProfileRow
  support_provider_profiles : List WorkerProfileRow
  service_logs : List ServiceLogRow
  users : List UserRow

/-- One top-to-bottom run of pipeline.py against a database state.
Returns the database as left on disk together with the run outcome: the
script aborts at the first failing statement, leaving every table
committed so far in place.  The statement order and the table each
INSERT reads are taken line by line from the source; in particular the
dim_users_gold insert (line 266) reads a table named users_silver, a
name no statement of the script ever creates (the users silver table is
created as dim_users_silver, line 168). -/
def runPipeline (inp : PipelineInput) (db0 : DB) : DB × Except String Unit :=
  let db := createTable "client_profiles_bronze" (TableData.clientsT inp.client_profiles) db0
  let db := createTable "support_provider_profiles_bronze"
    (TableData.workersT inp.support_provider_profiles) db
  let db := createTable "service_logs_bronze" (TableData.logsT inp.service_logs) db
  let db := createTable "users_bronze" (TableData.usersT inp.users) db
  let db := createTable "dim_profiles_silver" (TableData.profilesT []) db
  match db "support_provider_profiles_bronze", db "client_profiles_bronze" with
  | some (TableData.workersT ws), some (TableData.clientsT cs) =>
    match dim_profiles_silver ws cs with
    | Except.error e => (db, Except.error e)
    | Except.ok prows =>
      let db := createTable "dim_profiles_silver" (TableData.profilesT prows) db
      let db := createTable "fact_service_logs_silver" (TableData.factT []) db
      match db "service_logs_bronze" with
      | some (TableData.logsT ls) =>
        match fact_service_logs_silver ls with
        | Except.error e => (db, Except.error e)
        | Except.ok frows =>
          let db := createTable "fact_service_logs_silver" (TableData.factT frows) db
          let db := createTable "dim_users_silver" (TableData.usersT []) db
          match db "users_bronze" with
          | some (TableData.usersT us) =>
            let db := createTable "dim_users_silver" (TableData.usersT (dim_users_silver us)) db
            let db := createTable "dim_profiles_gold" (TableData.profilesT []) db
            match db "dim_profiles_silver" with
            | some (TableData.profilesT ps) =>
              let db := createTable "dim_profiles_gold" (TableData.profilesT ps) db
              let db := createTable "fact_service_logs_gold" (TableData.factGoldT []) db
              match db "fact_service_logs_silver" with
              | some (TableData.factT fs) =>
                let db := createTable "fact_service_logs_gold"
                  (TableData.factGoldT (fact_service_logs_gold fs)) db
                let db := createTable "dim_users_gold" (TableData.usersT []) db
                match db "users_silver" with
                | some (TableData.usersT xs) =>
                  (createTable "dim_users_gold" (TableData.usersT xs) db, Except.ok ())
                | _ =>
                  (db, Except.error "Catalog Error: table users_silver does not exist")
              | _ => (db, Except.error "Catalog Error: fact_service_logs_silver unreadable")
            | _ => (db, Except.error "Catalog Error: dim_profiles_silver unreadable")
          | _ => (db, Except.error "Catalog Error: users_bronze unreadable")
      | _ => (db, Except.error "Catalog Error: service_logs_bronze unreadable")
  | _, _ => (db, Except.error "Catalog Error: profile bronze tables unreadable")

/-- The joins of the final analysis query (pipeline.py lines 277 to
295), as (joined table, alias) pairs read off the three LEFT JOIN
clauses. -/
def analysisJoins : List (String × String) :=
  [("dim_profiles_gold", "worker_profile"),
   ("dim_profiles_gold", "client_profile"),
   ("dim_users_gold", "client_user")]

/-- The table aliases the SELECT list of the analysis CTE references
(pipeline.py lines 280 to 284). -/
def analysisSelectAliases : List String :=
  ["fact_service_logs_gold", "worker_profile", "worker_user", "client_profile", "client_user"]

/-- Whether the analysis SQL statement has a main SELECT after its WITH
clause.  The statement at lines 277 to 295 consists of the CTE alone,
so it does not. -/
def analysisHasFinalSelect : Bool := false

/-- Static outcome of submitting the analysis statement: DuckDB first
parses it (a WITH clause with no main query is a parse error) and then
binds every referenced alias against the FROM and JOIN clauses (an
unknown alias is a binder error). -/
def analysisQueryResult : Except String Unit :=
  if !analysisHasFinalSelect then
    Except.error "Parser Error: WITH clause without a main SELECT"
  else if analysisSelectAliases.all
      (fun a => a == "fact_service_logs_gold" || (analysisJoins.map Prod.snd).contains a) then
    Except.ok ()
  else
    Except.error "Binder Error: referenced table worker_user was not joined"

/-! Helper lemmas about the best-row selection used by the two QUALIFY
deduplications. -/

theorem pickBy_eq_or (f : α → Int) (b r : α) : pickBy f b r = b ∨ pickBy f b r = r := by
  unfold pickBy
  split
  · exact Or.inr rfl
  · exact Or.inl rfl

theorem le_pickBy_left (f : α → Int) (b r : α) : f b ≤ f (pickBy f b r) := by
  unfold pickBy
  split
  · exact le_of_lt (by assumption)
  · exact le_refl _

theorem le_pickBy_right (f : α → Int) (b r : α) : f r ≤ f (pickBy f b r) := by
  unfold pickBy
  split
  · exact le_refl _
  · exact le_of_not_lt (by assumption)

theorem foldl_pickBy_mem (f : α → Int) (xs : List α) :
    ∀ x, xs.foldl (pickBy f) x ∈ x :: xs := by
  induction xs with
  | nil => intro x; simp
  | cons z zs ih =>
    intro x
    rw [List.foldl_cons]
    have h := ih (pickBy f x z)
    rcases List.mem_cons.mp h with h1 | h1
    · rcases pickBy_eq_or f x z with hp | hp
      · rw [h1, hp]; exact List.mem_cons_self _ _
      · rw [h1, hp]; exact List.mem_cons_of_mem _ (List.mem_cons_self _ _)
    · exact List.mem_cons_of_mem _ (List.mem_cons_of_mem _ h1)

theorem foldl_pickBy_le (f : α → Int) (xs : List α) :
    ∀ x, ∀ y ∈ x :: xs, f y ≤ f (xs.foldl (pickBy f) x) := by
  induction xs with
  | nil =>
    intro x y hy
    rcases List.mem_cons.mp hy with h | h
    · subst h; simp
    · simp at h
  | cons z zs ih =>
    intro x y hy
    rw [List.foldl_cons]
    rcases List.mem_cons.mp hy with h | h
    · subst h
      exact le_trans (le_pickBy_left f y z) (ih (pickBy f y z) _ (List.mem_cons_self _ _))
    · rcases List.mem_cons.mp h with h2 | h2
      · subst h2
        exact le_trans (le_pickBy_right f x y) (ih (pickBy f x y) _ (List.mem_cons_self _ _))
      · exact ih (pickBy f x z) y (List.mem_cons_of_mem _ h2)

theorem bestBy_mem {f : α → Int} {l : List α} {r : α} (h : bestBy f l = some r) : r ∈ l := by
  cases l with
  | nil => simp [bestBy] at h
  | cons x xs =>
    simp [bestBy] at h
    rw [← h]
    exact foldl_pickBy_mem f xs x

theorem bestBy_le {f : α → Int} {l : List α} {r : α} (h : bestBy f l = some r) :
    ∀ y ∈ l, f y ≤ f r := by
  cases l with
  | nil => intro y hy; simp at hy
  | cons x xs =>
    simp [bestBy] at h
    intro y hy
    rw [← h]
    exact foldl_pickBy_le f xs x y hy

theorem bestBy_isSome_of_mem {f : α → Int} {l : List α} {a : α} (h : a ∈ l) :
    ∃ r, bestBy f l = some r := by
  cases l with
  | nil => simp at h
  | cons x xs => exact ⟨xs.foldl (pickBy f) x, rfl⟩

/-! Helper lemmas about latestPerKey, the shared shape of the two
QUALIFY row_number deduplications. -/

theorem latestPerKey_subset [DecidableEq κ] (key : α → κ) (upd : α → Int) (rows : List α) :
    ∀ r ∈ latestPerKey key upd rows, r ∈ rows := by
  intro r hr
  rcases List.mem_filterMap.mp hr with ⟨k, hk, hbest⟩
  exact (List.mem_filter.mp (bestBy_mem hbest)).1

theorem latestPerKey_max [DecidableEq κ] (key : α → κ) (upd : α → Int) (rows : List α) :
    ∀ r ∈ latestPerKey key upd rows, ∀ y ∈ rows, key y = key r → upd y ≤ upd r := by
  intro r hr y hy hkey
  rcases List.mem_filterMap.mp hr with ⟨k, hk, hbest⟩
  have hrk : key r = k := of_decide_eq_true (List.mem_filter.mp (bestBy_mem hbest)).2
  apply bestBy_le hbest
  exact List.mem_filter.mpr ⟨hy, decide_eq_true (by rw [hkey, hrk])⟩

theorem latestPerKey_covers [DecidableEq κ] (key : α → κ) (upd : α → Int) (rows : List α) :
    ∀ a ∈ rows, ∃ r ∈ latestPerKey key upd rows, key r = key a := by
  intro a ha
  have hmemg : a ∈ rows.filter (fun r => decide (key r = key a)) :=
    List.mem_filter.mpr ⟨ha, decide_eq_true rfl⟩
  rcases bestBy_isSome_of_mem (f := upd) hmemg with ⟨r, hbest⟩
  refine ⟨r, ?_, ?_⟩
  · exact List.mem_filterMap.mpr
      ⟨key a, List.mem_dedup.mpr (List.mem_map_of_mem key ha), hbest⟩
  · exact of_decide_eq_true (List.mem_filter.mp (bestBy_mem hbest)).2

theorem map_filterMap_eq (F : κ → Option α) (key : α → κ) :
    ∀ ks : List κ, (∀ k ∈ ks, ∃ r, F k = some r ∧ key r = k) →
      (ks.filterMap F).map key = ks := by
  intro ks
  induction ks with
  | nil => intro _; simp
  | cons k ks ih =>
    intro h
    rcases h k (List.mem_cons_self _ _) with ⟨r, hF, hkey⟩
    rw [List.filterMap_cons_some hF, List.map_cons, hkey,
      ih (fun k2 hk2 => h k2 (List.mem_cons_of_mem _ hk2))]

theorem latestPerKey_keys [DecidableEq κ] (key : α → κ) (upd : α → Int) (rows : List α) :
    (latestPerKey key upd rows).map key = (rows.map key).dedup := by
  apply map_filterMap_eq
  intro k hk
  rcases List.mem_map.mp (List.mem_dedup.mp hk) with ⟨a, ha, hka⟩
  have hmemg : a ∈ rows.filter (fun r => decide (key r = k)) :=
    List.mem_filter.mpr ⟨ha, decide_eq_true hka⟩
  rcases bestBy_isSome_of_mem (f := upd) hmemg with ⟨r, hbest⟩
  exact ⟨r, hbest, of_decide_eq_true (List.mem_filter.mp (bestBy_mem hbest)).2⟩

theorem latestPerKey_keys_nodup [DecidableEq κ] (key : α → κ) (upd : α → Int) (rows : List α) :
    ((latestPerKey key upd rows).map key).Nodup := by
  rw [latestPerKey_keys]
  exact List.nodup_dedup _

/-! Helper lemmas about the remaining list plumbing of the service-log
fact table. -/

theorem mem_insertById {r x : FactRow} {l : List FactRow} :
    x ∈ insertById r l ↔ x = r ∨ x ∈ l := by
  induction l with
  | nil => simp [insertById]
  | cons z zs ih =>
    unfold insertById
    split
    · simp [List.mem_cons]
    · simp only [List.mem_cons, ih]
      tauto

theorem mem_sortById {l : List FactRow} {x : FactRow} : x ∈ sortById l ↔ x ∈ l := by
  induction l with
  | nil => simp [sortById]
  | cons z zs ih =>
    unfold sortById at ih ⊢
    rw [List.foldr_cons, mem_insertById, ih, List.mem_cons]

theorem exceptMapM_ok_mem {f : α → Except String β} {l : List α} {l2 : List β}
    (h : exceptMapM f l = Except.ok l2) : ∀ b ∈ l2, ∃ a ∈ l, f a = Except.ok b := by
  induction l generalizing l2 with
  | nil =>
    simp [exceptMapM] at h
    subst h
    intro b hb
    simp at hb
  | cons a as ih =>
    intro b hb
    unfold exceptMapM at h
    cases hfa : f a with
    | error e => rw [hfa] at h; cases h
    | ok c =>
      rw [hfa] at h
      cases hrest : exceptMapM f as with
      | error e => rw [hrest] at h; cases h
      | ok cs =>
        rw [hrest] at h
        cases h
        rcases List.mem_cons.mp hb with hb1 | hb1
        · exact ⟨a, List.mem_cons_self _ _, by rw [hfa, hb1]⟩
        · rcases ih hrest b hb1 with ⟨a2, ha2, hfa2⟩
          exact ⟨a2, List.mem_cons_of_mem _ ha2, hfa2⟩

theorem castRow_ok {r : ServiceLogRow} {c : CleanRow} (h : castRow r = Except.ok c) :
    castDouble (stripDollar r.hourly_rate) = some c.hourly_rate ∧
    c.id = r.id ∧ c.client_id = r.client_id ∧ c.worker_id = r.worker_id ∧
    c.status = r.status ∧ c.start_time = r.start_time ∧ c.end_time = r.end_time ∧
    c.updated_at = r.updated_at := by
  unfold castRow at h
  cases hq : castDouble (stripDollar r.hourly_rate) with
  | none => rw [hq] at h; cases h
  | some q =>
    rw [hq] at h
    cases h
    simp [hq]

theorem mem_pivotRows {rows : List CleanRow} {fr : FactRow} (h : fr ∈ pivotRows rows) :
    ∃ r ∈ rows, r.id = fr.id ∧ r.client_id = fr.client_id ∧ r.worker_id = fr.worker_id ∧
      r.start_time = fr.start_time ∧ r.end_time = fr.end_time ∧
      r.hourly_rate = fr.hourly_rate := by
  rcases List.mem_map.mp h with ⟨k, hk, hfr⟩
  rcases List.mem_map.mp (List.mem_dedup.mp hk) with ⟨r, hr, hkey⟩
  refine ⟨r, hr, ?_⟩
  rw [← hfr, ← hkey]
  simp [mkFactRow, groupKey]

theorem fact_silver_ok {ls : List ServiceLogRow} {out : List FactRow}
    (h : fact_service_logs_silver ls = Except.ok out) :
    ∃ cleaned, exceptMapM castRow (service_logs_filtered ls) = Except.ok cleaned ∧
      out = sortById (pivotRows (latestPerKey cleanKey (fun r => r.updated_at) cleaned)) ∧
      (out.map (fun r => r.id)).Nodup := by
  unfold fact_service_logs_silver at h
  cases hm : exceptMapM castRow (service_logs_filtered ls) with
  | error e => rw [hm] at h; cases h
  | ok cleaned =>
    rw [hm] at h
    simp only at h
    split at h
    · split at h
      · cases h
        refine ⟨cleaned, rfl, rfl, by assumption⟩
      · cases h
    · cases h

/-- Every output row of the silver fact table is traceable to a bronze
service-log row with the same id, the same worker assignment, a
non-rejected status, and an hourly_rate string that parses to the output
rate. -/
theorem silver_row_source {ls : List ServiceLogRow} {out : List FactRow}
    (h : fact_service_logs_silver ls = Except.ok out) :
    ∀ r ∈ out, ∃ s ∈ ls, s.id = r.id ∧ s.worker_id = r.worker_id ∧
      s.worker_id.isSome = true ∧ s.status ≠ "rejected" ∧
      castDouble (stripDollar s.hourly_rate) = some r.hourly_rate := by
  intro r hr
  rcases fact_silver_ok h with ⟨cleaned, hm, hout, _⟩
  rw [hout] at hr
  rcases mem_pivotRows (mem_sortById.mp hr) with ⟨cr, hcr, hid, _, hwid, _, _, hrate⟩
  have hclean : cr ∈ cleaned := latestPerKey_subset _ _ _ cr hcr
  rcases exceptMapM_ok_mem hm cr hclean with ⟨s, hs, hcast⟩
  rcases castRow_ok hcast with ⟨hq, hcid, _, hcwid, hcst, _, _, _⟩
  have hfil := List.mem_filter.mp hs
  have hcond := hfil.2
  rw [Bool.and_eq_true] at hcond
  refine ⟨s, hfil.1, ?_, ?_, hcond.1, ?_, ?_⟩
  · rw [← hcid, hid]
  · rw [← hcwid, hwid]
  · have := hcond.2
    rw [bne_iff_ne] at this
    exact this
  · rw [hq, hrate]

/-- Claim C1, amended: every row of the silver and gold service-log
tables carries a non-null worker_id, and every such row comes from a
service log that has at least one status row that is not rejected (with
that worker assignment); individual rejected status rows are excluded
before pivoting, but a log whose latest status is rejected can still
appear through its earlier rows. -/
theorem c1_worker_not_null_and_rejected_rows_excluded
    (ls : List ServiceLogRow) (out : List FactRow)
    (h : fact_service_logs_silver ls = Except.ok out) :
    (∀ r ∈ out, r.worker_id ≠ none) ∧
    (∀ r ∈ out, ∃ s ∈ ls, s.id = r.id ∧ s.worker_id ≠ none ∧ s.status ≠ "rejected") ∧
    (∀ g ∈ fact_service_logs_gold out, g.worker_id ≠ none ∧
      ∃ s ∈ ls, s.id = g.id ∧ s.worker_id ≠ none ∧ s.status ≠ "rejected") := by
  have main : ∀ r ∈ out, r.worker_id ≠ none ∧
      ∃ s ∈ ls, s.id = r.id ∧ s.worker_id ≠ none ∧ s.status ≠ "rejected" := by
    intro r hr
    rcases silver_row_source h r hr with ⟨s, hsl, hsid, hswid, hsome, hrej, _⟩
    have hnn : s.worker_id ≠ none := by
      intro hn
      rw [hn] at hsome
      simp at hsome
    exact ⟨by rw [← hswid]; exact hnn, s, hsl, hsid, hnn, hrej⟩
  refine ⟨fun r hr => (main r hr).1, fun r hr => (main r hr).2, ?_⟩
  intro g hg
  rcases List.mem_map.mp hg with ⟨r, hr, hgr⟩
  rcases main r hr with ⟨hwn, s, hsl, hsid, hswn, hsr⟩
  subst hgr
  exact ⟨hwn, s, hsl, hsid, hswn, hsr⟩

/-- Concrete service-log extract refuting C1 as stated: log 1 ends in a
rejected status (its most recently updated row is the rejected one), yet
it still appears in the cleaned table, because the code filters
individual rejected rows rather than logs with a rejected latest
status. -/
def c1Logs : List ServiceLogRow :=
  [⟨1, some 10, some 20, "submitted", none, none, "50", 0, 1⟩,
   ⟨1, some 10, some 20, "approved", none, none, "50", 0, 2⟩,
   ⟨1, some 10, some 20, "rejected", none, none, "50", 0, 3⟩]

/-- Latest status of a service log in the raw extract, formalising the
phrase of the specification: the status carried by the most recently
updated status row of that log. -/
def latestStatus (ls : List ServiceLogRow) (i : Int) : Option String :=
  (bestBy (fun r => r.updated_at) (ls.filter (fun r => decide (r.id = i)))).map
    (fun r => r.status)

/-- Claim C1, counterexample: in c1Logs the latest status of log 1 is
rejected, and the cleaned table nevertheless contains a row for log 1. -/
theorem c1_counterexample :
    latestStatus c1Logs 1 = some "rejected" ∧
    fact_service_logs_silver c1Logs =
      Except.ok [⟨1, some 10, some 20, none, none, 50, some 2, some 1⟩] := by
  decide

/-- Claim C1, witness: the amended theorem applied to c1Logs. -/
theorem c1_witness :
    ((⟨1, some 10, some 20, none, none, 50, some 2, some 1⟩ : FactRow)).worker_id ≠ none :=
  (c1_worker_not_null_and_rejected_rows_excluded c1Logs
    [⟨1, some 10, some 20, none, none, 50, some 2, some 1⟩] (by decide)).1
    _ (by decide)

/-- Claim C3: for every input users table, the cleaned users table
contains exactly one row per distinct id (every input id is represented
and retained ids are pairwise distinct), and each retained row is an
input row whose updated_at is maximal among the input rows sharing its
id; on ties either row may be retained. -/
theorem c3_users_dedup_by_recency (us : List UserRow) :
    (∀ i ∈ us.map (fun r => r.id), ∃ r ∈ dim_users_silver us, r.id = i) ∧
    ((dim_users_silver us).map (fun r => r.id)).Nodup ∧
    (∀ r ∈ dim_users_silver us, r ∈ us ∧
      ∀ y ∈ us, y.id = r.id → y.updated_at ≤ r.updated_at) := by
  unfold dim_users_silver
  refine ⟨?_, latestPerKey_keys_nodup _ _ _, ?_⟩
  · intro i hi
    rcases List.mem_map.mp hi with ⟨a, ha, hai⟩
    rcases latestPerKey_covers (fun r => r.id) (fun r => r.updated_at) us a ha with
      ⟨r, hr, hkey⟩
    exact ⟨r, hr, by rw [hkey, hai]⟩
  · intro r hr
    exact ⟨latestPerKey_subset _ _ _ r hr, fun y hy hid =>
      latestPerKey_max _ _ _ r hr y hy hid⟩

/-- Users extract with two historical versions of id 1. -/
def c3Users : List UserRow :=
  [⟨1, "Ann", "Lee", "client", "NSW", 0, 5⟩,
   ⟨1, "Ann", "Lee", "client", "VIC", 0, 9⟩]

/-- Claim C3, witness: the theorem applied to c3Users. -/
theorem c3_witness :
    (∃ r ∈ dim_users_silver c3Users, r.id = 1) ∧
    ((dim_users_silver c3Users).map (fun r => r.id)).Nodup :=
  ⟨(c3_users_dedup_by_recency c3Users).1 1 (by decide),
   (c3_users_dedup_by_recency c3Users).2.1⟩

/-- Claim C4: when the profile union insert succeeds, hash_id is unique
across all rows of the profiles dimension, and any two rows carrying
different type tags, in particular two rows with the same local id where
one is a worker and the other a client, have different hash_id values. -/
theorem c4_hash_id_unique (ws : List WorkerProfileRow) (cs : List ClientProfileRow)
    (rows : List ProfileRow) (h : dim_profiles_silver ws cs = Except.ok rows) :
    ((rows.map (fun r => r.hash_id)).Nodup) ∧
    (∀ r1 ∈ rows, ∀ r2 ∈ rows, r1.user_type ≠ r2.user_type → r1.hash_id ≠ r2.hash_id) := by
  simp only [dim_profiles_silver] at h
  split at h
  case isTrue hnd =>
    cases h
    refine ⟨hnd, ?_⟩
    have key : ∀ r ∈ List.map workerProfileRow ws ++ List.map clientProfileRow cs,
        r.hash_id.2 = r.user_type := by
      intro r hrr
      rcases List.mem_append.mp hrr with hw | hc
      · rcases List.mem_map.mp hw with ⟨a, _, har⟩
        rw [← har]
        rfl
      · rcases List.mem_map.mp hc with ⟨a, _, har⟩
        rw [← har]
        rfl
    intro r1 h1 r2 h2 hty heq
    exact hty (by rw [← key r1 h1, ← key r2 h2, heq])
  case isFalse => cases h

/-- Worker and client profile extracts sharing the local id 1. -/
def c4Workers : List WorkerProfileRow := [⟨1, some 7, "nursing", 0, 0⟩]

def c4Clients : List ClientProfileRow := [⟨1, some 8, "standard", 0, 0⟩]

/-- Claim C4, witness: the theorem applied to the two one-row extracts
that share the local id 1. -/
theorem c4_witness :
    ((List.map workerProfileRow c4Workers ++ List.map clientProfileRow c4Clients).map
      (fun r => r.hash_id)).Nodup :=
  (c4_hash_id_unique c4Workers c4Clients
    (List.map workerProfileRow c4Workers ++ List.map clientProfileRow c4Clients)
    (by decide)).1

/-- Claim C10, amended: when the profile union insert succeeds it applies
no deduplication or filtering: the output is exactly the worker rows
(tagged worker, segment from worker_segment) followed by the client rows
(tagged client, segment from customer_segment), so the row count is the
sum of the two input counts and repeated user_ids are all retained.
Repeated profile ids within one input, however, collide on hash_id and
abort the insert with a primary-key violation instead of being
retained. -/
theorem c10_union_no_dedup (ws : List WorkerProfileRow) (cs : List ClientProfileRow)
    (rows : List ProfileRow) (h : dim_profiles_silver ws cs = Except.ok rows) :
    rows.length = ws.length + cs.length ∧
    rows = ws.map workerProfileRow ++ cs.map clientProfileRow ∧
    (∀ w ∈ ws, workerProfileRow w ∈ rows ∧ (workerProfileRow w).user_type = "worker" ∧
      (workerProfileRow w).segment = w.worker_segment) ∧
    (∀ c ∈ cs, clientProfileRow c ∈ rows ∧ (clientProfileRow c).user_type = "client" ∧
      (clientProfileRow c).segment = c.customer_segment) := by
  simp only [dim_profiles_silver] at h
  split at h
  case isTrue hnd =>
    cases h
    refine ⟨by simp, rfl, ?_, ?_⟩
    · intro w hw
      exact ⟨List.mem_append_left _ (List.mem_map_of_mem _ hw), rfl, rfl⟩
    · intro c hc
      exact ⟨List.mem_append_right _ (List.mem_map_of_mem _ hc), rfl, rfl⟩
  case isFalse => cases h

/-- A client extract in which the profile id 1 appears twice. -/
def c10DupClients : List ClientProfileRow :=
  [⟨1, some 7, "standard", 0, 1⟩, ⟨1, some 8, "plus", 0, 2⟩]

/-- Claim C10, counterexample: with a repeated profile id inside one
input, the two rows share a hash_id, so the insert into
dim_profiles_silver aborts with a primary-key violation; the repeated
rows are not retained in the dimension as the claim states. -/
theorem c10_counterexample :
    dim_profiles_silver [] c10DupClients =
      Except.error "Constraint Error: duplicate key violates dim_profiles_silver primary key" := by
  decide

/-- Worker and client extracts with distinct ids inside each input. -/
def c10Workers : List WorkerProfileRow := [⟨1, some 7, "nursing", 0, 0⟩]

def c10Clients : List ClientProfileRow :=
  [⟨1, some 8, "standard", 0, 0⟩, ⟨2, some 8, "plus", 0, 0⟩]

/-- Claim C10, witness: the amended theorem applied to concrete inputs,
giving the row-count equation. -/
theorem c10_witness :
    (List.map workerProfileRow c10Workers ++ List.map clientProfileRow c10Clients).length =
      c10Workers.length + c10Clients.length :=
  (c10_union_no_dedup c10Workers c10Clients
    (List.map workerProfileRow c10Workers ++ List.map clientProfileRow c10Clients)
    (by decide)).1

/-- Claim C5, amended: for every row of the gold service-log table,
time_to_approval equals approved_time minus submitted_time whenever both
are present (which can be negative when the latest submitted timestamp
is later than the latest approved one), and is absent whenever either
operand is missing. -/
theorem c5_time_to_approval_formula (fs : List FactRow) :
    ∀ g ∈ fact_service_logs_gold fs,
      (∀ a s, g.approved_time = some a → g.submitted_time = some s →
        g.time_to_approval = some (a - s)) ∧
      ((g.approved_time = none ∨ g.submitted_time = none) → g.time_to_approval = none) := by
  intro g hg
  rcases List.mem_map.mp hg with ⟨r, hr, hgr⟩
  subst hgr
  constructor
  · intro a s ha hs
    simp only at ha hs
    show timeToApproval r.approved_time r.submitted_time = some (a - s)
    rw [ha, hs]
    rfl
  · intro hnone
    show timeToApproval r.approved_time r.submitted_time = none
    rcases hnone with ha | hs
    · simp only at ha
      rw [ha]
      cases r.submitted_time <;> rfl
    · simp only at hs
      rw [hs]
      cases r.approved_time <;> rfl

/-- A service log that was approved and then submitted again: the latest
submitted timestamp (3) is later than the latest approved one (2). -/
def c5Logs : List ServiceLogRow :=
  [⟨1, some 10, some 20, "submitted", none, none, "50", 0, 1⟩,
   ⟨1, some 10, some 20, "approved", none, none, "50", 0, 2⟩,
   ⟨1, some 10, some 20, "submitted", none, none, "50", 0, 3⟩]

/-- Claim C5, counterexample: on c5Logs both submitted_time and
approved_time are present yet time_to_approval is minus one, a negative
duration, refuting the claimed non-negativity. -/
theorem c5_counterexample :
    fact_service_logs_silver c5Logs =
      Except.ok [⟨1, some 10, some 20, none, none, 50, some 2, some 3⟩] ∧
    fact_service_logs_gold [⟨1, some 10, some 20, none, none, 50, some 2, some 3⟩] =
      [⟨1, some 10, some 20, none, none, 50, some 2, some 3, some (-1)⟩] ∧
    ¬ (0 : Int) ≤ -1 := by
  decide

/-- Claim C5, witness: the amended theorem applied to the gold row built
from the c5Logs silver table. -/
theorem c5_witness :
    (⟨1, some 10, some 20, none, none, 50, some 2, some 3, some (-1)⟩ : GoldFactRow).time_to_approval =
      some (2 - 3) :=
  (c5_time_to_approval_formula [⟨1, some 10, some 20, none, none, 50, some 2, some 3⟩]
    _ (by decide)).1 2 3 (by decide) (by decide)

/-- Claim C9, amended: hourly_rate in every silver and gold service-log
row is the parsed value (dollar signs removed, cast to a number) of some
input row, so it is non-negative whenever every input rate parses to a
non-negative value; the pipeline itself enforces no sign constraint. -/
theorem c9_hourly_rate_nonneg_iff_inputs (ls : List ServiceLogRow) (out : List FactRow)
    (h : fact_service_logs_silver ls = Except.ok out)
    (hin : ∀ s ∈ ls, ∀ q, castDouble (stripDollar s.hourly_rate) = some q → 0 ≤ q) :
    (∀ r ∈ out, 0 ≤ r.hourly_rate) ∧
    (∀ g ∈ fact_service_logs_gold out, 0 ≤ g.hourly_rate) := by
  have main : ∀ r ∈ out, 0 ≤ r.hourly_rate := by
    intro r hr
    rcases silver_row_source h r hr with ⟨s, hsl, _, _, _, _, hq⟩
    exact hin s hsl r.hourly_rate hq
  refine ⟨main, ?_⟩
  intro g hg
  rcases List.mem_map.mp hg with ⟨r, hr, hgr⟩
  subst hgr
  exact main r hr

/-- A service-log extract whose hourly_rate text denotes a negative
number. -/
def c9Logs : List ServiceLogRow :=
  [⟨1, some 10, some 20, "submitted", none, none, "-5", 0, 1⟩,
   ⟨1, some 10, some 20, "approved", none, none, "-5", 0, 2⟩]

/-- Claim C9, counterexample: the parsing strips the dollar sign and
casts, but enforces no sign, so a negative input rate flows into the
cleaned table unchanged and its row violates the claimed
non-negativity. -/
theorem c9_counterexample :
    fact_service_logs_silver c9Logs =
      Except.ok [⟨1, some 10, some 20, none, none, -5, some 2, some 1⟩] ∧
    ¬ (0 : ℚ) ≤ (⟨1, some 10, some 20, none, none, -5, some 2, some 1⟩ : FactRow).hourly_rate := by
  decide

/-- Service-log extract with a well-formed positive dollar rate. -/
def c9GoodLogs : List ServiceLogRow :=
  [⟨1, some 10, some 20, "submitted", none, none, "$50", 0, 1⟩,
   ⟨1, some 10, some 20, "approved", none, none, "$50", 0, 2⟩]

/-- Claim C9, witness: the amended theorem applied to c9GoodLogs. -/
theorem c9_witness :
    (0 : ℚ) ≤ (⟨1, some 10, some 20, none, none, 50, some 2, some 1⟩ : FactRow).hourly_rate :=
  (c9_hourly_rate_nonneg_iff_inputs c9GoodLogs
    [⟨1, some 10, some 20, none, none, 50, some 2, some 1⟩]
    (by decide) (by decide)).1 _ (by decide)

/-- Claim C2: a service log whose status history is submitted at t1,
approved at t2 and rejected at t3 with t3 earlier than t2 (and a worker
assigned, as every analytical log has) is not dropped: the cleaned table
holds exactly one row for it, with submitted_time t1 and approved_time
t2; the rejected row alone is discarded. -/
theorem c2_rejected_then_approved_kept (L w : Int) (cid : Option Int)
    (st et : Option Timestamp) (hr : String) (q : ℚ) (ca cb cc t1 t2 t3 : Timestamp)
    (hq : castDouble (stripDollar hr) = some q) (hlt : t3 < t2) :
    fact_service_logs_silver
      [⟨L, cid, some w, "submitted", st, et, hr, ca, t1⟩,
       ⟨L, cid, some w, "approved", st, et, hr, cb, t2⟩,
       ⟨L, cid, some w, "rejected", st, et, hr, cc, t3⟩] =
    Except.ok [⟨L, cid, some w, st, et, q, some t2, some t1⟩] := by
  simp [fact_service_logs_silver, service_logs_filtered, exceptMapM, castRow, hq,
    latestPerKey, cleanKey, bestBy, pivotColumnsOK, pivotRows, groupKey, mkFactRow,
    maxUpdated, sortById, insertById, List.dedup_cons_of_mem, List.dedup_cons_of_not_mem]

/-- Claim C2, witness: the theorem applied to a concrete log. -/
theorem c2_witness :
    fact_service_logs_silver
      [⟨1, some 10, some 20, "submitted", none, none, "50", 0, 1⟩,
       ⟨1, some 10, some 20, "approved", none, none, "50", 5, 3⟩,
       ⟨1, some 10, some 20, "rejected", none, none, "50", 6, 2⟩] =
    Except.ok [⟨1, some 10, some 20, none, none, 50, some 3, some 1⟩] :=
  c2_rejected_then_approved_kept 1 20 (some 10) none none "50" 50 0 5 6 1 3 2
    (by decide) (by decide)

/-- Claim C7: the final analysis statement fails: it is a WITH clause
with no main SELECT, and its SELECT list references the alias
worker_user, which no JOIN clause introduces, so the gold user dimension
is joined only once (for the client role), not twice as documented. -/
theorem c7_analysis_query_broken :
    analysisQueryResult = Except.error "Parser Error: WITH clause without a main SELECT" ∧
    (analysisJoins.filter (fun j => j.1 == "dim_users_gold")).length = 1 ∧
    (analysisJoins.filter (fun j => j.1 == "dim_profiles_gold")).length = 2 ∧
    "worker_user" ∈ analysisSelectAliases ∧
    "worker_user" ∉ analysisJoins.map Prod.snd := by
  decide

/-- Claim C6: the aggregation stage never succeeds: the dim_users_gold
insert reads a table named users_silver that no statement of the script
creates (the users silver table is dim_users_silver), so every run aborts
there with a catalog error and the gold users table is left empty. -/
theorem c6_users_gold_never_copied (inp : PipelineInput) :
    (runPipeline inp emptyDB).2 ≠ Except.ok () ∧
    ((runPipeline inp emptyDB).1 "dim_users_gold" = none ∨
     (runPipeline inp emptyDB).1 "dim_users_gold" = some (TableData.usersT [])) := by
  cases hp : dim_profiles_silver inp.support_provider_profiles inp.client_profiles with
  | error e =>
    constructor
    · simp [runPipeline, createTable, hp]
    · left
      simp [runPipeline, createTable, emptyDB, hp]
  | ok prows =>
    cases hf : fact_service_logs_silver inp.service_logs with
    | error e =>
      constructor
      · simp [runPipeline, createTable, hp, hf]
      · left
        simp [runPipeline, createTable, emptyDB, hp, hf]
    | ok frows =>
      constructor
      · simp [runPipeline, createTable, emptyDB, hp, hf]
      · right
        simp [runPipeline, createTable, emptyDB, hp, hf]

/-- Claim C8: rerunning the pipeline against unchanged inputs on the
database left by the first run recreates every table, so the contents of
the three gold tables, and the run outcome itself, are identical across
the two runs. -/
theorem c8_rerun_identical_gold (inp : PipelineInput) :
    ((runPipeline inp ((runPipeline inp emptyDB).1)).1 "dim_profiles_gold" =
      (runPipeline inp emptyDB).1 "dim_profiles_gold") ∧
    ((runPipeline inp ((runPipeline inp emptyDB).1)).1 "fact_service_logs_gold" =
      (runPipeline inp emptyDB).1 "fact_service_logs_gold") ∧
    ((runPipeline inp ((runPipeline inp emptyDB).1)).1 "dim_users_gold" =
      (runPipeline inp emptyDB).1 "dim_users_gold") ∧
    ((runPipeline inp ((runPipeline inp emptyDB).1)).2 = (runPipeline inp emptyDB).2) := by
  cases hp : dim_profiles_silver inp.support_provider_profiles inp.client_profiles with
  | error e =>
    refine ⟨?_, ?_, ?_, ?_⟩ <;> simp [runPipeline, createTable, emptyDB, hp]
  | ok prows =>
    cases hf : fact_service_logs_silver inp.service_logs with
    | error e =>
      refine ⟨?_, ?_, ?_, ?_⟩ <;> simp [runPipeline, createTable, emptyDB, hp, hf]
    | ok frows =>
      refine ⟨?_, ?_, ?_, ?_⟩ <;> simp [runPipeline, createTable, emptyDB, hp, hf]

end Mable
